import Mathlib

/-!
Verification of the Hausa-English translation service (`src/app.py` plus the
Translation Engine it delegates to).  The boundary layer (`app.py`) is embedded
directly from the source; the Translation Engine (`translator.py`, the
`HausaEnglishTranslator` class) is not part of the provided sources, so it is
modelled from the specification (spec.md §§2-4): Language Validator,
dictionary-based Translation Strategy with longest-match tokenization, and the
append-only History Ledger.
-/

namespace NGO

namespace Engine

/-- Modelled from the spec: the error taxonomy of §7 for the missing
Translation Engine (`translator.py`).  `unsupportedLanguage` carries the
invalid code(s), `translationFailed` a human-readable cause. -/
inductive TError where
  | unsupportedLanguage (codes : List String)
  | emptyInput
  | translationFailed (cause : String)
deriving DecidableEq, Repr

/-- Modelled from the spec: the `TranslationResult` record of §3.  Confidence
scores are rationals (the float is only ever a ratio of small counts or a
constant); timestamps are logical instants drawn from the engine's clock. -/
structure TranslationResult where
  original_text : String
  translated_text : String
  source_language : String
  target_language : String
  confidence_score : ℚ
  model_used : String
  timestamp : Nat
deriving DecidableEq, Repr

/-- Modelled from the spec: one entry of the bidirectional term/phrase lookup
table of §4.2, keyed by (source word-or-phrase, target language). -/
structure LookupEntry where
  phrase : String
  target : String
  translation : String
deriving DecidableEq, Repr

/-- The supported language codes: exactly {en, ha} (spec §4.1). -/
def supported : List String := ["en", "ha"]

/-- Modelled from the spec: lowercase normalization of a language code
(§4.1, inputs are case-insensitive). -/
def lower (code : String) : String := String.mk (code.data.map Char.toLower)

/-- Modelled from the spec: a text is blank when it is empty after trimming,
i.e. every character is whitespace (§4.2 input constraint). -/
def isBlank (text : String) : Bool := text.data.all Char.isWhitespace

/-- Modelled from the spec: the Language Validator of §4.1.  Normalizes codes
to lowercase, accepts exactly {en, ha}, and on failure reports which code(s)
were invalid. -/
def validate (source_lang target_lang : String) : Except TError (String × String) :=
  let s := lower source_lang
  let t := lower target_lang
  let bad := (if s ∈ supported then [] else [source_lang]) ++
             (if t ∈ supported then [] else [target_lang])
  if bad = [] then .ok (s, t) else .error (.unsupportedLanguage bad)

/-- Modelled from the spec: split a character list at whitespace characters
(glossary: a token is a whitespace-delimited unit of text). -/
def splitWhite : List Char → List (List Char)
  | [] => [[]]
  | c :: cs =>
    match splitWhite cs with
    | [] => [[c]]
    | w :: ws => if c.isWhitespace then [] :: w :: ws else (c :: w) :: ws

/-- Modelled from the spec: the whitespace-delimited tokens of a text. -/
def tokens (text : String) : List String :=
  ((splitWhite text.data).map String.mk).filter (fun w => w ≠ "")

/-- Modelled from the spec: reassemble output tokens with single spaces. -/
def joinTokens : List String → String
  | [] => ""
  | [w] => w
  | w :: ws => w ++ " " ++ joinTokens ws

/-- Modelled from the spec: one step of longest-match selection — keep the
candidate entry whose phrase matches a longer prefix of the remaining
tokens. -/
def considerEntry (target : String) (toks : List String)
    (best : Option (Nat × String)) (e : LookupEntry) : Option (Nat × String) :=
  let pt := tokens e.phrase
  if e.target = target ∧ pt ≠ [] ∧ toks.take pt.length = pt then
    match best with
    | none => some (pt.length, e.translation)
    | some (k, tr) => if pt.length > k then some (pt.length, e.translation) else some (k, tr)
  else best

/-- Modelled from the spec: greedily find the longest known phrase of the
lookup table starting at the current token position (§4.2). -/
def matchLongest (table : List LookupEntry) (target : String)
    (toks : List String) : Option (Nat × String) :=
  table.foldl (considerEntry target toks) none

/-- Modelled from the spec: longest-match tokenized rendering (§4.2).  Returns
the output tokens and the number of input tokens resolved by the table;
unresolved tokens pass through unchanged. -/
def renderGo (table : List LookupEntry) (target : String) :
    List String → List String × Nat
  | [] => ([], 0)
  | t :: ts =>
    match matchLongest table target (t :: ts) with
    | some (k, tr) =>
      let rest := renderGo table target (ts.drop (k - 1))
      (tr :: rest.1, k + rest.2)
    | none =>
      let rest := renderGo table target ts
      (t :: rest.1, rest.2)
termination_by toks => toks.length
decreasing_by
  · simp only [List.length_drop, List.length_cons]
    omega
  · simp only [List.length_cons]
    omega

/-- Modelled from the spec: the strategy's `render(text, source, target)`
operation of §4.2, producing the translated text and the confidence score
`resolved / total` clamped to [0,1], with floor 1/10 when nothing resolves. -/
def render (table : List LookupEntry) (text source target : String) : String × ℚ :=
  let toks := tokens text
  let out := renderGo table target toks
  let conf : ℚ :=
    if out.2 = 0 then 1/10 else min 1 ((out.2 : ℚ) / (toks.length : ℚ))
  (joinTokens out.1, conf)

/-- Modelled from the spec: the state of the `HausaEnglishTranslator` —
read-only lookup table, append-only History Ledger, and the logical clock
supplying timestamps (§3, §5). -/
structure EngineState where
  table : List LookupEntry
  ledger : List TranslationResult
  clock : Nat
deriving DecidableEq, Repr

/-- A fresh engine over a given lookup table: empty ledger, clock at zero. -/
def initEngine (table : List LookupEntry) : EngineState :=
  { table := table, ledger := [], clock := 0 }

/-- Modelled from the spec: one translation through Validator then Strategy
(§2 control flow, §4.1-§4.2), without the Ledger append.  Empty/whitespace
text fails with `emptyInput`; equal normalized languages take the identity
policy (`confidence 1`, `model_used = "identity"`). -/
def translateOne (table : List LookupEntry) (clock : Nat)
    (text source_lang target_lang : String) : Except TError TranslationResult :=
  match validate source_lang target_lang with
  | .error e => .error e
  | .ok (s, t) =>
    if isBlank text then .error .emptyInput
    else if s = t then
      .ok { original_text := text, translated_text := text,
            source_language := s, target_language := t,
            confidence_score := 1, model_used := "identity", timestamp := clock }
    else
      let r := render table text s t
      .ok { original_text := text, translated_text := r.1,
            source_language := s, target_language := t,
            confidence_score := r.2, model_used := "dictionary-v1", timestamp := clock }

/-- Modelled from the spec: the engine's `translate` — Validator, Strategy,
then Ledger append of the completed result (§2, §3 lifecycle).  On error the
state is unchanged. -/
def translate (st : EngineState) (text source_lang target_lang : String) :
    Except TError TranslationResult × EngineState :=
  match translateOne st.table st.clock text source_lang target_lang with
  | .error e => (.error e, st)
  | .ok r => (.ok r, { st with ledger := st.ledger ++ [r], clock := st.clock + 1 })

/-- Modelled from the spec: translate each batch item in order with
successive timestamps, failing fast with the first error (§4.4). -/
def batchGo (table : List LookupEntry) (source_lang target_lang : String) :
    Nat → List String → Except TError (List TranslationResult)
  | _, [] => .ok []
  | c, t :: ts =>
    match translateOne table c t source_lang target_lang with
    | .error e => .error e
    | .ok r =>
      match batchGo table source_lang target_lang (c + 1) ts with
      | .error e => .error e
      | .ok rs => .ok (r :: rs)

/-- Modelled from the spec: the engine's `batch_translate` (§4.4) — the §4.2
pipeline per item in input order; on any item's failure the whole call fails
atomically with the first error and the Ledger is left untouched. -/
def batch_translate (st : EngineState) (texts : List String)
    (source_lang target_lang : String) :
    Except TError (List TranslationResult) × EngineState :=
  match batchGo st.table source_lang target_lang st.clock texts with
  | .error e => (.error e, st)
  | .ok rs => (.ok rs, { st with ledger := st.ledger ++ rs, clock := st.clock + rs.length })

/-- Modelled from the spec: the Ledger's `recent(limit)` of §4.3 — up to
`limit` most recent entries, newest first, `limit` clamped to the hard
ceiling 100; never mutates the ledger. -/
def recent (st : EngineState) (limit : Nat) : List TranslationResult :=
  st.ledger.reverse.take (min limit 100)

/-- Modelled from the spec: the engine method the boundary calls for history;
it is the Ledger read of §4.3. -/
def get_translation_history (st : EngineState) (limit : Nat) : List TranslationResult :=
  recent st limit

/-- The error of a fallible engine step, if any. -/
def errOf {α : Type} : Except TError α → Option TError
  | .error e => some e
  | .ok _ => none

/-- The first validation error a batch encounters, scanning the texts in
input order (the timestamp clock does not affect whether an item fails). -/
def firstError (table : List LookupEntry) (source_lang target_lang : String)
    (texts : List String) : Option TError :=
  texts.findSome? (fun x => errOf (translateOne table 0 x source_lang target_lang))

/-- A call into the engine that may append to the Ledger: a single
translation or a batch. -/
inductive EngineCall where
  | single (text source_lang target_lang : String)
  | batch (texts : List String) (source_lang target_lang : String)

/-- A sequence of engine calls executed in order, threading the state (the
single-writer discipline of §5). -/
def runCalls : EngineState → List EngineCall → EngineState
  | st, [] => st
  | st, .single x s t :: calls => runCalls (translate st x s t).2 calls
  | st, .batch xs s t :: calls => runCalls (batch_translate st xs s t).2 calls

/-- The single-writer clock discipline of §3/§5: ledger timestamps are
non-decreasing in append order and never ahead of the engine clock. -/
def ClockInv (st : EngineState) : Prop :=
  (st.ledger.map (fun r => r.timestamp)).Chain' (· ≤ ·) ∧
  ∀ r ∈ st.ledger, r.timestamp ≤ st.clock

/-- The result of the concrete single-item identity batch used as a witness. -/
def c3res : TranslationResult :=
  { original_text := "hi", translated_text := "hi", source_language := "en",
    target_language := "en", confidence_score := 1, model_used := "identity",
    timestamp := 0 }

/-- The engine state after the witness batch above. -/
def c3state : EngineState :=
  { table := [], ledger := [c3res], clock := 1 }

end Engine

namespace Api

open Engine

/-- From src/app.py: HTTPException with a status code and detail message. -/
structure HTTPException where
  status_code : Nat
  detail : String
deriving DecidableEq, Repr

/-- From src/app.py: the request body of POST /translate, with default
language codes. -/
structure TranslationRequest where
  text : String
  source_lang : String := "en"
  target_lang : String := "ha"
deriving DecidableEq, Repr

/-- From src/app.py: the request body of POST /translate/batch. -/
structure BatchTranslationRequest where
  texts : List String
  source_lang : String := "en"
  target_lang : String := "ha"
deriving DecidableEq, Repr

/-- From src/app.py: the response schema of POST /translate; the timestamp is
serialized to a string. -/
structure TranslationResponse where
  original_text : String
  translated_text : String
  source_language : String
  target_language : String
  confidence_score : ℚ
  model_used : String
  timestamp : String
deriving DecidableEq, Repr

/-- From src/app.py: building a TranslationResponse from an engine result. -/
def mkResponse (r : TranslationResult) : TranslationResponse :=
  { original_text := r.original_text, translated_text := r.translated_text,
    source_language := r.source_language, target_language := r.target_language,
    confidence_score := r.confidence_score, model_used := r.model_used,
    timestamp := toString r.timestamp }

/-- Modelled from the spec: the message the engine attaches to an error
(`str(e)` on the Python side). -/
def errDetail : TError → String
  | .unsupportedLanguage codes => "Unsupported language code(s): " ++ String.intercalate ", " codes
  | .emptyInput => "Text cannot be empty"
  | .translationFailed cause => cause

/-- From src/app.py (translate_text, lines 116-120): user-correctable engine
errors (ValueError, raised from the `except ValueError` clause and therefore
not re-caught) map to 400 with `str(e)`; any other engine exception is
caught by the blanket `except Exception` and surfaced as the handler's
generic HTTP 500 "Translation failed". -/
def toHTTP : TError → HTTPException
  | .unsupportedLanguage codes => ⟨400, errDetail (.unsupportedLanguage codes)⟩
  | .emptyInput => ⟨400, errDetail .emptyInput⟩
  | .translationFailed _ => ⟨500, "Translation failed"⟩

/-- From src/app.py (batch_translate, lines 159-163): the batch handler's
error mapping — ValueError to 400 with `str(e)`, any other exception to the
handler's generic HTTP 500 "Batch translation failed". -/
def toHTTPBatch : TError → HTTPException
  | .translationFailed _ => ⟨500, "Batch translation failed"⟩
  | e => toHTTP e

/-- From src/app.py (translate_text, lines 89-120): the POST /translate
handler over the global `translator` (None before startup finishes).
The `HTTPException(503, "Translator not initialized")` raised at line 100
is raised inside the handler's own `try`, and `fastapi.HTTPException`
subclasses `Exception`, so the blanket `except Exception` at line 118
catches it and re-raises HTTP 500 "Translation failed" — that 500 is what
the caller observes when the translator is uninitialized.  Returns the HTTP
outcome together with the possibly-updated global state. -/
def translate_text (translator : Option EngineState) (request : TranslationRequest) :
    Except HTTPException TranslationResponse × Option EngineState :=
  match translator with
  | none => (.error ⟨500, "Translation failed"⟩, none)
  | some st =>
    match Engine.translate st request.text request.source_lang request.target_lang with
    | (.error e, st') => (.error (toHTTP e), some st')
    | (.ok r, st') => (.ok (mkResponse r), some st')

/-- From src/app.py (batch_translate, lines 123-163): the POST
/translate/batch handler.  Both the `HTTPException(503)` of line 134 and the
`HTTPException(400, "Maximum 100 texts per batch")` of line 137 are raised
inside the `try` and caught by the blanket `except Exception` at line 161,
so the caller observes HTTP 500 "Batch translation failed" in both cases;
the over-100 guard still fires before the engine is invoked, leaving the
state unchanged.  The returned payload is the translations list and its
count. -/
def batch_translate (translator : Option EngineState) (request : BatchTranslationRequest) :
    Except HTTPException (List TranslationResponse × Nat) × Option EngineState :=
  match translator with
  | none => (.error ⟨500, "Batch translation failed"⟩, none)
  | some st =>
    if request.texts.length > 100 then
      (.error ⟨500, "Batch translation failed"⟩, some st)
    else
      match Engine.batch_translate st request.texts request.source_lang request.target_lang with
      | (.error e, st') => (.error (toHTTPBatch e), some st')
      | (.ok rs, st') => (.ok (rs.map mkResponse, rs.length), some st')

/-- From src/app.py (get_translation_history, lines 166-185): the GET
/history handler; `limit` defaults to 50 when omitted and is clamped to 100,
then the engine's history is returned with its count.  The
`HTTPException(503)` of line 175 is likewise caught by the `except
Exception` at line 183 and surfaced as HTTP 500 "Failed to retrieve
history".  The handler never writes state. -/
def get_translation_history (translator : Option EngineState) (limit : Option Nat) :
    Except HTTPException (List TranslationResult × Nat) :=
  match translator with
  | none => .error ⟨500, "Failed to retrieve history"⟩
  | some st =>
    let l0 := limit.getD 50
    let l := if l0 > 100 then 100 else l0
    let history := Engine.get_translation_history st l
    .ok (history, history.length)

end Api

end NGO

namespace NGO

open Engine Api

lemma validate_ok {source_lang target_lang : String}
    (hs : lower source_lang ∈ supported) (ht : lower target_lang ∈ supported) :
    validate source_lang target_lang = .ok (lower source_lang, lower target_lang) := by
  unfold validate
  simp [hs, ht]

lemma render_conf_bounds (table : List LookupEntry) (text source target : String) :
    0 ≤ (render table text source target).2 ∧ (render table text source target).2 ≤ 1 := by
  unfold render
  simp only []
  split_ifs with h
  · constructor <;> norm_num
  · constructor
    · exact le_min (by norm_num) (div_nonneg (Nat.cast_nonneg _) (Nat.cast_nonneg _))
    · exact min_le_left _ _

/-- C1: for every supported (source, target) pair and every text non-empty
after trimming, `translate` succeeds with a confidence score in [0, 1] and
source/target language fields equal to the lowercased request codes. -/
theorem translate_valid_succeeds (st : EngineState) (text source_lang target_lang : String)
    (hs : lower source_lang ∈ supported) (htg : lower target_lang ∈ supported)
    (ht : isBlank text = false) :
    ∃ r st', Engine.translate st text source_lang target_lang = (.ok r, st') ∧
      0 ≤ r.confidence_score ∧ r.confidence_score ≤ 1 ∧
      r.source_language = lower source_lang ∧ r.target_language = lower target_lang := by
  unfold Engine.translate Engine.translateOne
  rw [validate_ok hs htg]
  by_cases hst : lower source_lang = lower target_lang
  · simp only [ht, Bool.false_eq_true, ite_false, hst, ite_true]
    exact ⟨_, _, rfl, by norm_num, by norm_num, rfl, rfl⟩
  · simp only [ht, Bool.false_eq_true, ite_false, hst]
    refine ⟨_, _, rfl, ?_, ?_, rfl, rfl⟩
    · exact (render_conf_bounds st.table text (lower source_lang) (lower target_lang)).1
    · exact (render_conf_bounds st.table text (lower source_lang) (lower target_lang)).2

/-- Witness for C1 at a concrete input. -/
theorem translate_valid_succeeds_w :
    ∃ r st', Engine.translate (initEngine []) "hello" "EN" "ha" = (.ok r, st') ∧
      0 ≤ r.confidence_score ∧ r.confidence_score ≤ 1 ∧
      r.source_language = lower "EN" ∧ r.target_language = lower "ha" :=
  translate_valid_succeeds (initEngine []) "hello" "EN" "ha"
    (by decide) (by decide) (by decide)

/-- C2: for every supported language L and text non-empty after trimming,
`translate(t, L, L)` succeeds with the input returned unchanged, confidence
1.0 and `model_used = "identity"`. -/
theorem translate_identity (st : EngineState) (t L : String)
    (hL : lower L ∈ supported) (ht : isBlank t = false) :
    ∃ r st', Engine.translate st t L L = (.ok r, st') ∧
      r.translated_text = t ∧ r.confidence_score = 1 ∧ r.model_used = "identity" := by
  unfold Engine.translate Engine.translateOne
  rw [validate_ok hL hL]
  simp only [ht, Bool.false_eq_true, ite_false, ite_true, if_pos rfl]
  exact ⟨_, _, rfl, rfl, rfl, rfl⟩

/-- Witness for C2 at a concrete input. -/
theorem translate_identity_w :
    ∃ r st', Engine.translate (initEngine []) "hello" "en" "en" = (.ok r, st') ∧
      r.translated_text = "hello" ∧ r.confidence_score = 1 ∧ r.model_used = "identity" :=
  translate_identity (initEngine []) "hello" "en" (by decide) (by decide)

/-- C4: the boundary history query clamps every requested limit to the hard
ceiling 100 (so no request, e.g. limit 1000, yields more than 100 entries)
and a limit of 0 yields the empty sequence. -/
theorem history_limit_clamped (st : EngineState) (limit : Nat) :
    ∃ h, Api.get_translation_history (some st) (some limit) = .ok (h, h.length) ∧
      h.length ≤ 100 ∧ (limit = 0 → h = []) := by
  refine ⟨Engine.get_translation_history st (if limit > 100 then 100 else limit), ?_, ?_, ?_⟩
  · simp [Api.get_translation_history]
  · calc (Engine.get_translation_history st (if limit > 100 then 100 else limit)).length
        ≤ min (if limit > 100 then 100 else limit) 100 :=
          List.length_take_le _ _
      _ ≤ 100 := Nat.min_le_right _ _
  · intro h0
    subst h0
    simp [Engine.get_translation_history, Engine.recent]

/-- C6 (code bug shown on the model): before the engine is initialized, the
translate, batch and history handlers all fail without translation work or
ledger write, but the caller observes HTTP 500 with each handler's generic
detail — the `HTTPException(503, "Translator not initialized")` the code
raises (and the spec's ServiceUnavailable describes) is caught by the
handler's own blanket `except Exception` and never reaches the caller. -/
theorem uninitialized_masked_500 (request : TranslationRequest)
    (breq : BatchTranslationRequest) (limit : Option Nat) :
    Api.translate_text none request = (.error ⟨500, "Translation failed"⟩, none) ∧
    Api.batch_translate none breq = (.error ⟨500, "Batch translation failed"⟩, none) ∧
    Api.get_translation_history none limit = .error ⟨500, "Failed to retrieve history"⟩ :=
  ⟨rfl, rfl, rfl⟩

/-- C7 (code bug shown on the model): a batch request with more than 100
texts is still stopped before the engine's batch_translate runs — the state
comes back unchanged — but the `HTTPException(400, "Maximum 100 texts per
batch")` the code raises is caught by its own `except Exception`, so the
caller observes HTTP 500 "Batch translation failed" instead of the
bad-request failure the claim states. -/
theorem batch_cap_masked_500 (st : EngineState) (request : BatchTranslationRequest)
    (h : request.texts.length > 100) :
    Api.batch_translate (some st) request =
      (.error ⟨500, "Batch translation failed"⟩, some st) := by
  simp [Api.batch_translate, h]

/-- Witness for C7's theorem: a batch of 101 texts observes the masked 500
and leaves the engine untouched. -/
theorem batch_cap_masked_500_w :
    Api.batch_translate (some (initEngine []))
        { texts := List.replicate 101 "hi", source_lang := "en", target_lang := "ha" } =
      (.error ⟨500, "Batch translation failed"⟩, some (initEngine [])) :=
  batch_cap_masked_500 (initEngine []) _ (by simp)

/-- C10: when the caller omits the history limit, the boundary defaults it to
50, so an unparameterized history request returns at most 50 entries. -/
theorem history_default_limit (st : EngineState) :
    ∃ h, Api.get_translation_history (some st) none = .ok (h, h.length) ∧ h.length ≤ 50 := by
  refine ⟨Engine.get_translation_history st 50, ?_, ?_⟩
  · simp [Api.get_translation_history]
  · calc (Engine.get_translation_history st 50).length
        ≤ min 50 100 := List.length_take_le _ _
      _ ≤ 50 := by norm_num

end NGO

namespace NGO

open Engine Api

lemma translateOne_ok_original {table : List LookupEntry} {c : Nat}
    {text s t : String} {r : TranslationResult}
    (h : translateOne table c text s t = .ok r) : r.original_text = text := by
  unfold translateOne at h
  cases hv : validate s t with
  | error e => rw [hv] at h; exact absurd h (by simp)
  | ok p =>
    obtain ⟨s', t'⟩ := p
    rw [hv] at h
    by_cases hb : isBlank text
    · simp [hb] at h
    · simp only [hb, Bool.false_eq_true, ite_false] at h
      by_cases hst : s' = t'
      · simp only [hst, ite_true] at h
        injection h with h2
        subst h2
        rfl
      · simp only [hst, ite_false] at h
        injection h with h2
        subst h2
        rfl

lemma translateOne_ok_timestamp {table : List LookupEntry} {c : Nat}
    {text s t : String} {r : TranslationResult}
    (h : translateOne table c text s t = .ok r) : r.timestamp = c := by
  unfold translateOne at h
  cases hv : validate s t with
  | error e => rw [hv] at h; exact absurd h (by simp)
  | ok p =>
    obtain ⟨s', t'⟩ := p
    rw [hv] at h
    by_cases hb : isBlank text
    · simp [hb] at h
    · simp only [hb, Bool.false_eq_true, ite_false] at h
      by_cases hst : s' = t'
      · simp only [hst, ite_true] at h
        injection h with h2
        subst h2
        rfl
      · simp only [hst, ite_false] at h
        injection h with h2
        subst h2
        rfl

lemma translateOne_errOf_clock (table : List LookupEntry) (text s t : String) (c : Nat) :
    errOf (translateOne table c text s t) = errOf (translateOne table 0 text s t) := by
  unfold translateOne
  cases hv : validate s t with
  | error e => rfl
  | ok p =>
    obtain ⟨s', t'⟩ := p
    by_cases hb : isBlank text
    · simp [hb, errOf]
    · by_cases hst : s' = t' <;> simp [hb, hst, errOf]

lemma batchGo_ok_original {table : List LookupEntry} {s t : String} :
    ∀ {texts : List String} {c : Nat} {rs : List TranslationResult},
      batchGo table s t c texts = .ok rs →
      rs.map (fun r => r.original_text) = texts := by
  intro texts
  induction texts with
  | nil =>
    intro c rs h
    unfold batchGo at h
    injection h with h2
    subst h2
    rfl
  | cons x xs ih =>
    intro c rs h
    unfold batchGo at h
    cases h1 : translateOne table c x s t with
    | error e => rw [h1] at h; exact absurd h (by simp)
    | ok r =>
      rw [h1] at h
      cases h2 : batchGo table s t (c + 1) xs with
      | error e => rw [h2] at h; exact absurd h (by simp)
      | ok rs' =>
        rw [h2] at h
        injection h with h3
        subst h3
        simp only [List.map_cons]
        rw [translateOne_ok_original h1, ih h2]

/-- C3: a successful batch returns exactly one result per input text, whose
`original_text` fields are the input texts in the same order (no reordering,
deduplication, or omission). -/
theorem batch_preserves_order (st : EngineState) (texts : List String)
    (source_lang target_lang : String) (rs : List TranslationResult) (st' : EngineState)
    (h : Engine.batch_translate st texts source_lang target_lang = (.ok rs, st')) :
    rs.map (fun r => r.original_text) = texts := by
  unfold Engine.batch_translate at h
  cases hb : batchGo st.table source_lang target_lang st.clock texts with
  | error e => rw [hb] at h; exact absurd h (by simp)
  | ok rs0 =>
    rw [hb] at h
    have : rs0 = rs := by injection h with h1 _; injection h1
    subst this
    exact batchGo_ok_original hb

/-- Witness for C3: a concrete one-item identity batch preserves the input. -/
theorem batch_preserves_order_w :
    [c3res].map (fun r => r.original_text) = ["hi"] :=
  batch_preserves_order (initEngine []) ["hi"] "en" "en" [c3res] c3state rfl


lemma batchGo_error_iff (table : List LookupEntry) (s t : String) :
    ∀ (texts : List String) (c : Nat) (e : TError),
      batchGo table s t c texts = .error e ↔ firstError table s t texts = some e := by
  intro texts
  induction texts with
  | nil =>
    intro c e
    constructor
    · intro h; exact absurd h (by simp [batchGo])
    · intro h; exact absurd h (by simp [firstError])
  | cons x xs ih =>
    intro c e
    unfold batchGo firstError
    rw [List.findSome?_cons]
    have hclk := translateOne_errOf_clock table x s t c
    cases h1 : translateOne table c x s t with
    | error e0 =>
      have he : errOf (translateOne table 0 x s t) = some e0 := by
        rw [← hclk, h1]; rfl
      rw [he]
      simp
    | ok r =>
      have he : errOf (translateOne table 0 x s t) = none := by
        rw [← hclk, h1]; rfl
      rw [he]
      have ihc := ih (c + 1) e
      unfold firstError at ihc
      rw [← ihc]
      cases h2 : batchGo table s t (c + 1) xs with
      | error e1 => simp
      | ok rs => simp

/-- C9: batch translation is atomic under per-item failure — whenever it
fails, it fails with the first error encountered scanning the texts in input
order, produces no partial result list, and leaves the History Ledger (the
whole engine state) unchanged. -/
theorem batch_atomic (st : EngineState) (texts : List String)
    (source_lang target_lang : String) :
    (∀ e, (Engine.batch_translate st texts source_lang target_lang).1 = .error e ↔
       firstError st.table source_lang target_lang texts = some e) ∧
    (∀ e, (Engine.batch_translate st texts source_lang target_lang).1 = .error e →
       (Engine.batch_translate st texts source_lang target_lang).2 = st) := by
  unfold Engine.batch_translate
  have hiff := batchGo_error_iff st.table source_lang target_lang texts st.clock
  cases h : batchGo st.table source_lang target_lang st.clock texts with
  | error e0 =>
    constructor
    · intro e
      simp only
      rw [← hiff e, h]
    · intro e _
      rfl
  | ok rs =>
    constructor
    · intro e
      simp only
      constructor
      · intro h1; exact absurd h1 (by simp)
      · intro h1
        have := (hiff e).mpr h1
        rw [h] at this
        exact absurd this (by simp)
    · intro e h1
      exact absurd h1 (by simp)

/-- Witness for C9: a batch whose first item is blank fails and leaves the
engine state exactly as it was. -/
theorem batch_atomic_w :
    (Engine.batch_translate (initEngine []) ["", "x"] "en" "ha").2 = initEngine [] :=
  (batch_atomic (initEngine []) ["", "x"] "en" "ha").2 TError.emptyInput rfl

lemma clockInv_translate {st : EngineState} (h : ClockInv st) (text s t : String) :
    ClockInv (Engine.translate st text s t).2 := by
  unfold Engine.translate
  cases ht : translateOne st.table st.clock text s t with
  | error e => simpa using h
  | ok r =>
    have hts : r.timestamp = st.clock := translateOne_ok_timestamp ht
    constructor
    · simp only [List.map_append, List.map_cons, List.map_nil]
      rw [List.chain'_append]
      refine ⟨h.1, List.chain'_singleton _, ?_⟩
      intro x hx y hy
      simp only [List.head?_cons, Option.mem_def, Option.some.injEq] at hy
      subst hy
      have hx' : x ∈ st.ledger.map (fun r => r.timestamp) :=
        List.mem_of_mem_getLast? hx
      obtain ⟨rr, hrr, hrx⟩ := List.mem_map.mp hx'
      rw [hts, ← hrx]
      exact h.2 rr hrr
    · intro rr hrr
      simp only [List.mem_append, List.mem_singleton] at hrr
      cases hrr with
      | inl hin => exact Nat.le_succ_of_le (h.2 rr hin)
      | inr heq => subst heq; rw [hts]; exact Nat.le_succ _

lemma batchGo_ok_map_timestamp {table : List LookupEntry} {s t : String} :
    ∀ {texts : List String} {c : Nat} {rs : List TranslationResult},
      batchGo table s t c texts = .ok rs →
      rs.map (fun r => r.timestamp) = List.range' c rs.length := by
  intro texts
  induction texts with
  | nil =>
    intro c rs h
    unfold batchGo at h
    injection h with h2
    subst h2
    rfl
  | cons x xs ih =>
    intro c rs h
    unfold batchGo at h
    cases h1 : translateOne table c x s t with
    | error e => rw [h1] at h; exact absurd h (by simp)
    | ok r =>
      rw [h1] at h
      cases h2 : batchGo table s t (c + 1) xs with
      | error e => rw [h2] at h; exact absurd h (by simp)
      | ok rs' =>
        rw [h2] at h
        injection h with h3
        subst h3
        simp only [List.map_cons, List.length_cons]
        rw [translateOne_ok_timestamp h1, ih h2, List.range'_succ]

lemma clockInv_batch {st : EngineState} (h : ClockInv st) (texts : List String)
    (s t : String) : ClockInv (Engine.batch_translate st texts s t).2 := by
  cases hb : batchGo st.table s t st.clock texts with
  | error e =>
    have hstate : (Engine.batch_translate st texts s t).2 = st := by
      unfold Engine.batch_translate
      rw [hb]
    rw [hstate]
    exact h
  | ok rs =>
    have hstate : (Engine.batch_translate st texts s t).2 =
        { st with ledger := st.ledger ++ rs, clock := st.clock + rs.length } := by
      unfold Engine.batch_translate
      rw [hb]
    rw [hstate]
    have hmap : rs.map (fun r => r.timestamp) = List.range' st.clock rs.length :=
      batchGo_ok_map_timestamp hb
    constructor
    · simp only [List.map_append]
      rw [List.chain'_append, hmap]
      refine ⟨h.1, ?_, ?_⟩
      · exact ((List.pairwise_lt_range' _ _).chain').imp fun a b hab => Nat.le_of_lt hab
      · intro x hx y hy
        rw [List.head?_range'] at hy
        by_cases hn : rs.length = 0
        · simp [hn] at hy
        · simp only [hn, ite_false, Option.mem_def, Option.some.injEq] at hy
          subst hy
          obtain ⟨rr, hrr, hrx⟩ :=
            List.mem_map.mp (List.mem_of_mem_getLast? hx)
          rw [← hrx]
          exact h.2 rr hrr
    · intro rr hrr
      show rr.timestamp ≤ st.clock + rs.length
      simp only [List.mem_append] at hrr
      cases hrr with
      | inl hin => exact Nat.le_trans (h.2 rr hin) (Nat.le_add_right _ _)
      | inr hin =>
        have : rr.timestamp ∈ List.range' st.clock rs.length := by
          rw [← hmap]
          exact List.mem_map.mpr ⟨rr, hin, rfl⟩
        obtain ⟨i, hilt, hieq⟩ := List.mem_range'.mp this
        omega

lemma clockInv_run : ∀ (calls : List EngineCall) {st : EngineState},
    ClockInv st → ClockInv (runCalls st calls) := by
  intro calls
  induction calls with
  | nil => intro st h; exact h
  | cons c cs ih =>
    intro st h
    cases c with
    | single x s t => exact ih (clockInv_translate h x s t)
    | batch xs s t => exact ih (clockInv_batch h xs s t)

/-- C8: across any sequence of engine calls (single or batch translations)
against a fresh engine, the ledger's timestamps are monotonically
non-decreasing in append order, and the recent-history view returns entries
newest first (non-increasing timestamps). -/
theorem timestamps_monotone (table : List LookupEntry)
    (calls : List EngineCall) (limit : Nat) :
    (((runCalls (initEngine table) calls).ledger.map
        (fun r => r.timestamp)).Chain' (· ≤ ·)) ∧
    (((Engine.recent (runCalls (initEngine table) calls) limit).map
        (fun r => r.timestamp)).Chain' (fun a b => b ≤ a)) := by
  have hInv : ClockInv (runCalls (initEngine table) calls) :=
    clockInv_run calls ⟨by simp [initEngine], by simp [initEngine]⟩
  refine ⟨hInv.1, ?_⟩
  unfold Engine.recent
  rw [List.map_take, List.map_reverse]
  refine List.Chain'.take ?_ _
  exact List.chain'_reverse.mpr hInv.1

lemma translate_fst (st : EngineState) (text s t : String) :
    (Engine.translate st text s t).1 = translateOne st.table st.clock text s t := by
  unfold Engine.translate
  cases h : translateOne st.table st.clock text s t <;> rfl

lemma translateOne_emptyInput_iff (table : List LookupEntry) (c : Nat)
    (text source_lang target_lang : String) :
    translateOne table c text source_lang target_lang = .error .emptyInput ↔
      (lower source_lang ∈ supported ∧ lower target_lang ∈ supported ∧
        isBlank text = true) := by
  unfold translateOne
  by_cases hs : lower source_lang ∈ supported <;>
    by_cases htg : lower target_lang ∈ supported
  · rw [validate_ok hs htg]
    by_cases hb : isBlank text
    · simp [hb, hs, htg]
    · by_cases hst : lower source_lang = lower target_lang <;> simp [hb, hst, hs, htg]
  · simp [validate, hs, htg]
  · simp [validate, hs, htg]
  · simp [validate, hs, htg]

lemma translateOne_unsupported_iff (table : List LookupEntry) (c : Nat)
    (text source_lang target_lang : String) :
    (∃ bad, translateOne table c text source_lang target_lang =
        .error (.unsupportedLanguage bad)) ↔
      (lower source_lang ∉ supported ∨ lower target_lang ∉ supported) := by
  unfold translateOne
  by_cases hs : lower source_lang ∈ supported <;>
    by_cases htg : lower target_lang ∈ supported
  · rw [validate_ok hs htg]
    by_cases hb : isBlank text
    · simp [hb, hs, htg]
    · by_cases hst : lower source_lang = lower target_lang <;> simp [hb, hst, hs, htg]
  · simp [validate, hs, htg]
  · simp [validate, hs, htg]
  · simp [validate, hs, htg]

/-- Counterexample to C5 as stated: on blank text with an unsupported target
code the call fails with `unsupportedLanguage`, not `emptyInput` — the
Validator runs before the Strategy's empty-text check (spec §2 control
flow), so "fails with EmptyInputError exactly when the text is blank" is
false at translate("", "en", "fr"). -/
theorem translate_error_priority_cex :
    (Engine.translate (initEngine []) "" "en" "fr").1
        = .error (.unsupportedLanguage ["fr"]) ∧
    (Engine.translate (initEngine []) "" "en" "fr").1 ≠ .error .emptyInput ∧
    isBlank "" = true := by
  refine ⟨rfl, ?_, rfl⟩
  intro h
  exact TError.noConfusion (Except.error.inj h)

/-- C5 (amended): `translate` fails with `emptyInput` exactly when both
language codes are supported and the text is blank (validation runs first),
and fails with `unsupportedLanguage` exactly when a normalized code is
outside {en, ha}; the boundary maps both to HTTP 400 bad-request failures. -/
theorem translate_error_classification (st : EngineState)
    (text source_lang target_lang : String) :
    ((Engine.translate st text source_lang target_lang).1 = .error .emptyInput ↔
      (lower source_lang ∈ supported ∧ lower target_lang ∈ supported ∧
        isBlank text = true)) ∧
    ((∃ bad, (Engine.translate st text source_lang target_lang).1 =
        .error (.unsupportedLanguage bad)) ↔
      (lower source_lang ∉ supported ∨ lower target_lang ∉ supported)) ∧
    (∀ codes, (toHTTP (.unsupportedLanguage codes)).status_code = 400) ∧
    (toHTTP .emptyInput).status_code = 400 := by
  refine ⟨?_, ?_, fun _ => rfl, rfl⟩
  · rw [translate_fst]
    exact translateOne_emptyInput_iff st.table st.clock text source_lang target_lang
  · rw [translate_fst]
    exact translateOne_unsupported_iff st.table st.clock text source_lang target_lang

end NGO
